import Mathlib

/-!
Verification of the ollama-web-search orchestration pipeline (src/main.py).

The Python source is shallowly embedded: each relevant Python function
becomes a Lean function over explicit inputs.  External effects (the
inference service, HTTP search backends, the content-extraction service,
the file system) are passed in as explicit outcome values: `none`
models a raised exception / absent value, `some v` a value `v` returned
by the external call.  Python truthiness tests (`if not x`) on strings
and lists are modelled explicitly (`none` and the empty string / empty
list are falsy).
-/

namespace OllamaWebSearch

/-- A search backend result record, a Python dict with optional keys
`title`, `url`, `content` (absent key = `none`); `result.get(k, d)`
becomes `Option.getD`. -/
structure SearchResult where
  title : Option String
  url : Option String
  content : Option String
deriving DecidableEq, Repr

/-- A history entry as built by `save_search_to_history`:
`{'timestamp': ..., 'question': ..., 'query': ..., 'result': {'title': ..., 'url': ...}}`. -/
structure HistoryEntry where
  timestamp : String
  question : String
  query : String
  resultTitle : String
  resultUrl : String
deriving DecidableEq, Repr

/-! ## HistoryStore: `save_search_to_history` / `load_history` -/

/-- In-memory part of `save_search_to_history` (src/main.py:180-193):
append the entry, then `if len > 50: keep the last 50`
(`self.search_history[-50:]`, i.e. drop all but the last 50).
The best-effort file write that follows is modelled separately
(`persist_history`). -/
def save_search_to_history (history : List HistoryEntry) (e : HistoryEntry) :
    List HistoryEntry :=
  let h := history ++ [e]
  if h.length > 50 then h.drop (h.length - 50) else h

/-- The last `n` elements of a list (Python `l[-n:]` for `n > 0`). -/
def lastN (n : Nat) (l : List α) : List α := l.drop (l.length - n)

theorem lastN_of_length_le {n : Nat} {l : List α} (h : l.length ≤ n) :
    lastN n l = l := by
  simp [lastN, Nat.sub_eq_zero_of_le h]

theorem length_lastN (n : Nat) (l : List α) :
    (lastN n l).length = min n l.length := by
  simp [lastN]
  omega

theorem save_search_to_history_eq_lastN (history : List HistoryEntry)
    (e : HistoryEntry) :
    save_search_to_history history e = lastN 50 (history ++ [e]) := by
  simp only [save_search_to_history, lastN]
  by_cases h : (history ++ [e]).length > 50
  · rw [if_pos h]
  · rw [if_neg h]
    have h0 : (history ++ [e]).length - 50 = 0 := by omega
    rw [h0, List.drop_zero]

/-- Trimming to the last 50, appending more, and trimming again is the
same as trimming the whole concatenation once. -/
theorem lastN_lastN_append (l m : List α) :
    lastN 50 (lastN 50 l ++ m) = lastN 50 (l ++ m) := by
  unfold lastN
  simp only [List.drop_append_eq_append_drop, List.drop_drop,
    List.length_append, List.length_drop]
  congr 1
  · congr 1
    omega
  · congr 1
    omega

theorem length_save_search_to_history_le (history : List HistoryEntry)
    (e : HistoryEntry) : (save_search_to_history history e).length ≤ 50 := by
  rw [save_search_to_history_eq_lastN]
  have := length_lastN 50 (history ++ [e])
  omega

/-- A sequence of successful pipeline runs, each appending one entry via
`save_search_to_history`, starting from an empty history. -/
def run_history (entries : List HistoryEntry) : List HistoryEntry :=
  entries.foldl save_search_to_history []

theorem foldl_save_search_to_history (es : List HistoryEntry) :
    ∀ h : List HistoryEntry, h.length ≤ 50 →
      es.foldl save_search_to_history h = lastN 50 (h ++ es) := by
  induction es with
  | nil =>
    intro h hh
    simpa using (lastN_of_length_le hh).symm
  | cons e es ih =>
    intro h hh
    rw [List.foldl_cons,
      ih (save_search_to_history h e) (length_save_search_to_history_le h e),
      save_search_to_history_eq_lastN, lastN_lastN_append]
    congr 1
    simp

/-! ## SearchFederation: `browse_web` (src/main.py:155-178)

Each configured SearxNG instance is modelled by the outcome of its HTTP
round trip: `none` when the request raises (network error, non-2xx via
`raise_for_status`, malformed JSON body), `some rs` when the body parsed
and `data.get('results', [])` gave the list `rs`. -/

/-- `browse_web`: try instances in order; an exception or an empty
result list moves to the next instance; the first non-empty list is
returned truncated to `max_results`; if no instance yields results,
return `None`. -/
def browse_web (outcomes : List (Option (List SearchResult)))
    (maxResults : Nat) : Option (List SearchResult) :=
  match outcomes with
  | [] => none
  | o :: rest =>
    match o with
    | none => browse_web rest maxResults
    | some results =>
      if results = [] then browse_web rest maxResults
      else some (results.take maxResults)

/-! ## InferenceClient: `model_response` (src/main.py:92-107)

The `i`-th element of `outcomes` is what the `i`-th `ollama.chat` call
would do: `none` = raise an exception, `some s` = return content `s`.
The second component of the result collects the `time.sleep` delays
(`2 ** attempt`) in order. -/

def model_response_loop (attempt maxRetries : Nat) :
    List (Option String) → Option String × List Nat
  | [] => (none, [])
  | o :: rest =>
    match o with
    | some s => (some s, [])
    | none =>
      if attempt < maxRetries - 1 then
        let p := model_response_loop (attempt + 1) maxRetries rest
        (p.1, 2 ^ attempt :: p.2)
      else (none, [])

/-- `model_response`: `for attempt in range(max_retries)` — the loop
runs one call per attempt, returning the first successful content,
sleeping `2 ** attempt` after each failure except the last, and
returning `None` after the last failure.  Faithful when
`outcomes.length = maxRetries`. -/
def model_response (outcomes : List (Option String)) (maxRetries : Nat) :
    Option String × List Nat :=
  model_response_loop 0 maxRetries outcomes

/-- The Python default `max_retries: int = 3`, also the config default. -/
def defaultMaxRetries : Nat := 3

/-! ## Python string primitives

Python `str` operations are modelled on the character lists underlying
Lean strings (Lean's own `String.trim`, `String.splitOn` and
`String.startsWith` are `Substring`-based and do not reduce in the
kernel). -/

/-- The whitespace set of Python `str.strip()` (its ASCII part). -/
def pyWhitespace (c : Char) : Bool :=
  c = ' ' || c = '\t' || c = '\n' || c = '\x0d' || c = '\x0b' || c = '\x0c'

/-- Python `str.strip()`: drop leading and trailing whitespace. -/
def pyStrip (s : List Char) : List Char :=
  ((s.dropWhile pyWhitespace).reverse.dropWhile pyWhitespace).reverse

/-- Python `str.split(sep)` for a one-character separator: split at
every occurrence, keeping empty pieces. -/
def splitOnChar (sep : Char) : List Char → List (List Char)
  | [] => [[]]
  | c :: rest =>
    let r := splitOnChar sep rest
    if c = sep then [] :: r
    else
      match r with
      | [] => [[c]]
      | h :: t => (c :: h) :: t

/-- Python `s.startswith(pre)`. -/
def pyStartsWith (s pre : String) : Bool :=
  pre.data.isPrefixOf s.data

/-! ## ResultSelection: `select_best_result` (src/main.py:249-287)

The inference outcome of `self.model_response(...)` is passed in as
`response : Option String` (`none` = all retries failed). -/

/-- `[line.strip() for line in response.strip().split('\n') if line.strip()]` -/
def pyLines (s : String) : List String :=
  ((((splitOnChar '\n' (pyStrip s.data)).map pyStrip).map String.mk).filter
    (fun l => l ≠ ""))

/-- `next((line.split(':', 1)[1].strip() for line in lines if line.startswith(pre)), None)`
for `pre` ending in `':'`: the first matching line, with everything
after the first colon stripped. -/
def extractField (pre : String) (lines : List String) : Option String :=
  (lines.find? (fun l => pyStartsWith l pre)).map
    (fun l => String.mk (pyStrip (l.data.drop pre.length)))

/-- `# Fallback to first result` (src/main.py:284-287):
`results[0].get('title', 'Unknown'), results[0].get('url', '')` when
`results` is non-empty, else `None`. -/
def firstResultFallback (results : List SearchResult) :
    Option (String × String) :=
  match results with
  | [] => none
  | r :: _ => some (r.title.getD "Unknown", r.url.getD "")

/-- `select_best_result`: `if not response: return None` (a failed
inference call, or an empty response string, yields `None` — no
fallback on this path); otherwise parse `Title:` / `URL:` lines and
return the pair when both fields are non-empty, else fall back to the
first result. -/
def select_best_result (response : Option String)
    (results : List SearchResult) : Option (String × String) :=
  match response with
  | none => none
  | some s =>
    if s = "" then none
    else
      let lines := pyLines s
      match extractField "Title:" lines, extractField "URL:" lines with
      | some t, some u =>
        if t ≠ "" ∧ u ≠ "" then some (t, u)
        else firstResultFallback results
      | _, _ => firstResultFallback results

/-! ## ContentFetcher: `retrieve_page_information` (src/main.py:128-153)

The URL normalization and the content truncation are the two pure parts;
the HTTP round trip through the reader service is an oracle.  Page text
is modelled as `List Char` so that truncation is plain list arithmetic. -/

/-- `if not url.startswith(('http://', 'https://')): url = 'https://' + url` -/
def clean_url (url : String) : String :=
  if pyStartsWith url "http://" || pyStartsWith url "https://" then url
  else "https://" ++ url

/-- `"\n... (content truncated)"` appended when the 10,000-char limit
is exceeded. -/
def truncationMarker : List Char := "\n... (content truncated)".data

/-- `content = response.text.strip(); if len(content) > 10000:
content = content[:10000] + "\n... (content truncated)"` -/
def truncate_content (raw : List Char) : List Char :=
  let content := pyStrip raw
  if content.length > 10000 then content.take 10000 ++ truncationMarker
  else content

/-! ## Persistence: the history file (src/main.py:195-209)

The file is modelled as `missing` (no file at `history_file`),
`malformed` (present but `json.load` raises — a parse error), or
`stored j` (present, holding text that parses to the JSON value `j`,
of any shape).  A small JSON value type covers what the program reads
and writes. -/

inductive Json where
  | jstr (s : String)
  | jarr (items : List Json)
  | jobj (fields : List (String × Json))

inductive HistFile where
  | missing
  | malformed
  | stored (j : Json)

/-- `json.dump` of one entry dict, in the key order the source builds it. -/
def encodeEntry (e : HistoryEntry) : Json :=
  .jobj [("timestamp", .jstr e.timestamp), ("question", .jstr e.question),
    ("query", .jstr e.query),
    ("result", .jobj [("title", .jstr e.resultTitle),
      ("url", .jstr e.resultUrl)])]

def encodeHistory (h : List HistoryEntry) : Json :=
  .jarr (h.map encodeEntry)

def decodeEntry (j : Json) : Option HistoryEntry :=
  match j with
  | .jobj [("timestamp", .jstr ts), ("question", .jstr qn),
      ("query", .jstr qr),
      ("result", .jobj [("title", .jstr t), ("url", .jstr u)])] =>
    some ⟨ts, qn, qr, t, u⟩
  | _ => none

def decodeEntries (items : List Json) : Option (List HistoryEntry) :=
  match items with
  | [] => some []
  | j :: rest =>
    match decodeEntry j, decodeEntries rest with
    | some e, some es => some (e :: es)
    | _, _ => none

def decodeHistory (j : Json) : Option (List HistoryEntry) :=
  match j with
  | .jarr items => decodeEntries items
  | _ => none

/-- `load_history` (src/main.py:201-209) as the source actually
behaves: a missing file or a raising `json.load` yields the empty
list, and otherwise the parsed value is returned verbatim — the
source performs no validation, so a file holding valid JSON that is
not an array of history entries (a string, `null`, an object, ...) is
returned as-is, despite the function's own `-> List[Dict]`
annotation. -/
def load_history_py (file : HistFile) : Json :=
  match file with
  | .missing => .jarr []
  | .malformed => .jarr []
  | .stored j => j

/-- The entry-decoded view of `load_history_py`'s verbatim result:
the entries the caller receives when the file holds a serialized
entry array — the only file states at which the round-trip and cap
theorems below apply it, where the decoding is exact
(`decodeHistory_encodeHistory`).  The source itself does not decode or
validate; see `load_history_py` and the C7 theorem. -/
def load_history (file : HistFile) : List HistoryEntry :=
  (decodeHistory (load_history_py file)).getD []

/-- The file-write half of `save_search_to_history`
(src/main.py:195-199): on success the file now holds the serialized
history; a raising `open`/`json.dump` only prints a warning and leaves
the previous file state. -/
def persist_history (writeOk : Bool) (file : HistFile)
    (h : List HistoryEntry) : HistFile :=
  if writeOk then .stored (encodeHistory h) else file

/-! ## Orchestrator: one iteration of `interactive_search`
(src/main.py:312-383, the pipeline part after command handling; the
single-query path of `main` runs the same stages). -/

inductive PipeOutcome where
  | queryGenFailed
  | noResults
  | selectionFailed
  | retrievalFailed
  /-- All stages up to and including content retrieval succeeded; the
  argument records whether the streaming answer synthesis succeeded
  (`streaming_model_response` catches a mid-stream exception and
  returns `""`, so the iteration finishes either way). -/
  | completed (synthOk : Bool)
deriving DecidableEq, Repr

/-- One pipeline run over explicit oracle outcomes:
`queryR` = what `generate_search_query`'s inference call returns,
`searchOutcomes` = the per-instance HTTP outcomes fed to `browse_web`,
`selR` = what `select_best_result`'s inference call returns,
`fetchR` = what `retrieve_page_information` returns
(`none` = fetch raised), `synthOk` = whether the synthesis stream
succeeded.  Returns the history after the run and the outcome.
Python truthiness guards (`if not search_query`, `if not results`,
`if not result`, `if not content`) are modelled exactly: empty strings
and empty lists take the failure branch. -/
def interactive_search_step (queryR : Option String)
    (searchOutcomes : List (Option (List SearchResult)))
    (selR : Option String) (fetchR : Option String) (synthOk : Bool)
    (question ts : String) (maxResults : Nat)
    (history : List HistoryEntry) : List HistoryEntry × PipeOutcome :=
  match queryR with
  | none => (history, .queryGenFailed)
  | some q =>
    if q = "" then (history, .queryGenFailed)
    else
      match browse_web searchOutcomes maxResults with
      | none => (history, .noResults)
      | some results =>
        if results = [] then (history, .noResults)
        else
          match select_best_result selR results with
          | none => (history, .selectionFailed)
          | some (title, url) =>
            match fetchR with
            | none => (history, .retrievalFailed)
            | some content =>
              if content = "" then (history, .retrievalFailed)
              else
                (save_search_to_history history ⟨ts, question, q, title, url⟩,
                  .completed synthOk)

/-! ## Round-trip helper lemmas for the persistence layer -/

theorem decodeEntry_encodeEntry (e : HistoryEntry) :
    decodeEntry (encodeEntry e) = some e := rfl

theorem decodeEntries_map_encodeEntry (l : List HistoryEntry) :
    decodeEntries (l.map encodeEntry) = some l := by
  induction l with
  | nil => rfl
  | cons e es ih =>
    rw [List.map_cons]
    unfold decodeEntries
    rw [decodeEntry_encodeEntry, ih]

theorem decodeHistory_encodeHistory (h : List HistoryEntry) :
    decodeHistory (encodeHistory h) = some h := by
  simp [decodeHistory, encodeHistory, decodeEntries_map_encodeEntry]

/-- At a file holding a serialized entry array, the verbatim model
returns that array and the decoded view returns its entries, so the
two models agree on every state the round-trip and cap theorems
use. -/
theorem load_history_stored_encode (es : List HistoryEntry) :
    load_history_py (.stored (encodeHistory es)) = encodeHistory es ∧
    load_history (.stored (encodeHistory es)) = es := by
  refine ⟨rfl, ?_⟩
  simp [load_history, load_history_py, decodeHistory_encodeHistory]

/-! ## Claim theorems -/

/-- C2: starting from an empty history, after any sequence of N runs
each calling `save_search_to_history` once, the history log has length
exactly `min N 50`, and the retained entries are the most recent ones
in insertion order — appending past the 50-entry cap discards the
oldest entries first. -/
theorem run_history_length_and_recency (entries : List HistoryEntry) :
    (run_history entries).length = min entries.length 50 ∧
    run_history entries = entries.drop (entries.length - 50) := by
  have h := foldl_save_search_to_history entries [] (by simp)
  simp only [List.nil_append] at h
  unfold run_history
  rw [h]
  refine ⟨?_, rfl⟩
  rw [length_lastN]
  omega

/-- C7: the claim is right and the code has a slip — src/main.py:206
returns `json.load(f)` with no validation, so a history file holding
valid JSON that is not an entry array (here the JSON string
`"hello"`) is returned verbatim, contradicting `load_history`'s own
`-> List[Dict]` annotation: the caller receives neither the empty
sequence the claim requires for malformed content nor an ordered
sequence of stored entries (the development's decoder rejects the
value, and it differs from the serialization of the empty sequence).
A missing file and a parse error do yield the empty list. -/
theorem load_history_unvalidated :
    load_history_py (HistFile.stored (Json.jstr "hello")) = Json.jstr "hello" ∧
    decodeHistory (Json.jstr "hello") = none ∧
    Json.jstr "hello" ≠ encodeHistory [] ∧
    load_history_py HistFile.missing = Json.jarr [] ∧
    load_history_py HistFile.malformed = Json.jarr [] :=
  ⟨rfl, rfl, fun h => Json.noConfusion h, rfl, rfl⟩

/-- C8: a successful append (`save_search_to_history` followed by a
successful file write) and a reload (`load_history`) reproduce the
in-memory sequence after the append — same order, same entries, same
field values. -/
theorem save_then_load_roundtrip (history : List HistoryEntry)
    (e : HistoryEntry) (file : HistFile) :
    load_history (persist_history true file (save_search_to_history history e)) =
      save_search_to_history history e := by
  simp [load_history, load_history_py, persist_history,
    decodeHistory_encodeHistory]

/-- C10: after every `save_search_to_history`, the in-memory history —
and hence the persisted array on a successful write — has length at
most 50, for every starting history including one already holding more
than 50 entries. -/
theorem save_search_to_history_restores_cap (history : List HistoryEntry)
    (e : HistoryEntry) (file : HistFile) :
    (save_search_to_history history e).length ≤ 50 ∧
    (load_history (persist_history true file
      (save_search_to_history history e))).length ≤ 50 := by
  constructor
  · exact length_save_search_to_history_le history e
  · simp [load_history, load_history_py, persist_history,
      decodeHistory_encodeHistory]
    exact length_save_search_to_history_le history e

/-! ## Federation helper lemmas -/

/-- Instances that raise or return zero results are skipped. -/
theorem browse_web_skip :
    ∀ (pre rest : List (Option (List SearchResult))) (maxResults : Nat),
      (∀ o ∈ pre, o = none ∨ o = some []) →
      browse_web (pre ++ rest) maxResults = browse_web rest maxResults := by
  intro pre
  induction pre with
  | nil => intro rest m _; rfl
  | cons o pre ih =>
    intro rest m hpre
    have htail : ∀ x ∈ pre, x = none ∨ x = some [] :=
      fun x hx => hpre x (List.mem_cons_of_mem o hx)
    rcases hpre o (List.mem_cons_self o pre) with h | h <;> subst h <;>
      simp [browse_web, ih rest m htail]

theorem browse_web_all_fail (outs : List (Option (List SearchResult)))
    (maxResults : Nat) (h : ∀ o ∈ outs, o = none ∨ o = some []) :
    browse_web outs maxResults = none := by
  have := browse_web_skip outs [] maxResults h
  simpa using this

/-- C3: `browse_web` tries the backends strictly in order, skipping
each failing or empty one without retrying; the first backend with a
non-empty result list is returned truncated to `max_results` in
backend order, regardless of what any later backend would have done;
and when every backend fails or returns empty, the result is `None`. -/
theorem browse_web_federation_order
    (pre post : List (Option (List SearchResult)))
    (results : List SearchResult) (maxResults : Nat)
    (hpre : ∀ o ∈ pre, o = none ∨ o = some [])
    (hres : results ≠ []) :
    browse_web (pre ++ some results :: post) maxResults =
      some (results.take maxResults) ∧
    ∀ outs : List (Option (List SearchResult)),
      (∀ o ∈ outs, o = none ∨ o = some []) →
      browse_web outs maxResults = none := by
  constructor
  · rw [browse_web_skip pre (some results :: post) maxResults hpre]
    simp [browse_web, hres]
  · exact fun outs h => browse_web_all_fail outs maxResults h

/-- Witness for C3: instance 1 raises, instance 2 returns zero
results, instance 3 returns two results, a fourth instance is never
consulted; the two results come back in backend order. -/
theorem browse_web_federation_order_witness :
    browse_web ([none, some []] ++
        some [⟨some "A", some "a", none⟩, ⟨some "B", some "b", none⟩] ::
          [some [⟨some "C", some "c", none⟩]]) 8 =
      some [⟨some "A", some "a", none⟩, ⟨some "B", some "b", none⟩] := by
  exact (browse_web_federation_order [none, some []]
    [some [⟨some "C", some "c", none⟩]]
    [⟨some "A", some "a", none⟩, ⟨some "B", some "b", none⟩] 8
    (by decide) (by decide)).1.trans (by decide)

/-! ## Inference retry helper lemmas -/

theorem findSome?_id_of_first {α : Type} :
    ∀ (l : List (Option α)) (i : Nat) (s : α),
      i < l.length → (∀ j, j < i → l.getD j none = none) →
      l.getD i none = some s → l.findSome? id = some s := by
  intro l
  induction l with
  | nil => intro i s hi _ _; simp at hi
  | cons o rest ih =>
    intro i s hi hbefore hat
    cases i with
    | zero =>
      rw [List.getD_cons_zero] at hat
      subst hat
      simp [List.findSome?_cons]
    | succ i =>
      have h0 : o = none := by
        have := hbefore 0 (Nat.succ_pos i)
        rwa [List.getD_cons_zero] at this
      subst h0
      rw [List.findSome?_cons]
      exact ih i s (by simpa using hi)
        (fun j hj => by simpa using hbefore (j + 1) (by omega))
        (by simpa using hat)

theorem model_response_loop_spec :
    ∀ (l : List (Option String)) (a m : Nat), a + l.length = m →
      (model_response_loop a m l).1 = l.findSome? id ∧
      ∃ k, (model_response_loop a m l).2 =
        (List.range k).map (fun j => 2 ^ (a + j)) := by
  intro l
  induction l with
  | nil => intro a m _; exact ⟨rfl, 0, rfl⟩
  | cons o rest ih =>
    intro a m h
    cases o with
    | some s => exact ⟨by simp [model_response_loop, List.findSome?_cons], 0, rfl⟩
    | none =>
      by_cases hc : a < m - 1
      · have ih' := ih (a + 1) m (by simp at h; omega)
        have heq : model_response_loop a m (none :: rest) =
            ((model_response_loop (a + 1) m rest).1,
              2 ^ a :: (model_response_loop (a + 1) m rest).2) := by
          simp [model_response_loop, hc]
        constructor
        · rw [heq]
          dsimp only
          rw [ih'.1]
          simp [List.findSome?_cons]
        · obtain ⟨k, hk⟩ := ih'.2
          refine ⟨k + 1, ?_⟩
          rw [heq]
          dsimp only
          rw [hk, List.range_succ_eq_map, List.map_cons, List.map_map]
          have hfun : ((fun j => 2 ^ (a + j)) ∘ Nat.succ) =
              (fun j => 2 ^ (a + 1 + j)) := by
            funext j
            simp only [Function.comp_apply]
            congr 1
            omega
          rw [hfun]
          norm_num
      · have hr : rest = [] := by
          have hlen : a + (rest.length + 1) = m := by simpa using h
          have : rest.length = 0 := by omega
          exact List.length_eq_zero.mp this
        subst hr
        refine ⟨?_, 0, ?_⟩
        · simp [model_response_loop, hc, List.findSome?_cons]
        · simp [model_response_loop, hc]

/-- C4: `model_response` makes up to `max_retries` attempts; it
returns the first successful attempt's content (e.g. two failures then
a success on the third attempt still yields that success); only after
`max_retries` consecutive failures does it return `None`; and the
backoff sleeps form the sequence `2^0, 2^1, ...` — doubling per
attempt and non-decreasing. -/
theorem model_response_retry_backoff (outcomes : List (Option String))
    (maxRetries : Nat) (hlen : outcomes.length = maxRetries) :
    (model_response outcomes maxRetries).1 = outcomes.findSome? id ∧
    ((∀ o ∈ outcomes, o = none) →
      (model_response outcomes maxRetries).1 = none) ∧
    (∀ i s, i < outcomes.length →
      (∀ j, j < i → outcomes.getD j none = none) →
      outcomes.getD i none = some s →
      (model_response outcomes maxRetries).1 = some s) ∧
    ∃ k, (model_response outcomes maxRetries).2 =
      (List.range k).map (fun j => 2 ^ j) := by
  have h := model_response_loop_spec outcomes 0 maxRetries (by omega)
  unfold model_response
  refine ⟨h.1, ?_, ?_, ?_⟩
  · intro hall
    rw [h.1]
    exact List.findSome?_eq_none_iff.mpr (fun x hx => by simp [hall x hx])
  · intro i s hi hbefore hat
    rw [h.1]
    exact findSome?_id_of_first outcomes i s hi hbefore hat
  · obtain ⟨k, hk⟩ := h.2
    exact ⟨k, by simpa using hk⟩

/-- Witness for C4: three attempts, the first two raising and the
third succeeding, with the default `max_retries = 3`: the successful
content is returned and the sleeps were 1s then 2s. -/
theorem model_response_retry_backoff_witness :
    (model_response [none, none, some "ok"] defaultMaxRetries).1 = some "ok" := by
  exact (model_response_retry_backoff [none, none, some "ok"]
    defaultMaxRetries (by decide)).1.trans (by decide)

/-- C6: `retrieve_page_information` truncates the stripped page text
to 10,000 characters and appends the truncation marker exactly when
the text exceeds that limit: text longer than 10,000 characters
becomes exactly its first 10,000 characters followed by the marker,
and text of at most 10,000 characters is returned unchanged with no
marker. -/
theorem truncate_content_spec (raw : List Char) :
    ((pyStrip raw).length > 10000 →
      truncate_content raw = (pyStrip raw).take 10000 ++ truncationMarker ∧
      ((pyStrip raw).take 10000).length = 10000) ∧
    ((pyStrip raw).length ≤ 10000 → truncate_content raw = pyStrip raw) := by
  constructor
  · intro h
    constructor
    · simp [truncate_content, h]
    · rw [List.length_take]
      omega
  · intro h
    have hn : ¬(pyStrip raw).length > 10000 := by omega
    simp [truncate_content, hn]

theorem pyStrip_replicate_a (n : Nat) :
    pyStrip (List.replicate n 'a') = List.replicate n 'a' := by
  have hws : pyWhitespace 'a' = false := by decide
  unfold pyStrip
  rw [List.dropWhile_replicate, hws]
  simp only [Bool.false_eq_true, if_false, List.reverse_replicate]
  rw [List.dropWhile_replicate, hws]
  simp

/-- Witness for C6: a fetched page of 15,000 characters yields exactly
the first 10,000 characters plus the truncation marker. -/
theorem truncate_content_spec_witness :
    truncate_content (List.replicate 15000 'a') =
      List.replicate 10000 'a' ++ truncationMarker := by
  have h := (truncate_content_spec (List.replicate 15000 'a')).1
    (by rw [pyStrip_replicate_a, List.length_replicate]; omega)
  rw [h.1, pyStrip_replicate_a, List.take_replicate]
  norm_num

/-- Whether a URI scheme is present, in the RFC 3986 sense: an initial
letter, then letters / digits / `+` / `-` / `.`, then a colon.
Modelled from the spec: the claim speaks of "a scheme" being present,
which is this standard notion; the code itself only tests for the two
literal strings `http://` and `https://`. -/
def schemeTail (cs : List Char) : Bool :=
  match cs with
  | [] => false
  | c :: rest =>
    if c = ':' then true
    else (c.isAlpha || c.isDigit || c = '+' || c = '-' || c = '.') &&
      schemeTail rest

def schemePresent (url : String) : Bool :=
  match url.data with
  | [] => false
  | c :: rest => c.isAlpha && schemeTail rest

/-- Counterexample to C9 as stated: `"ftp://example.com"` carries a
scheme (`ftp`), yet `retrieve_page_information`'s URL cleaning does
not leave it unchanged — it prefixes `https://` because it only
recognizes the literal `http://` and `https://`. -/
theorem clean_url_counterexample :
    schemePresent "ftp://example.com" = true ∧
    clean_url "ftp://example.com" = "https://ftp://example.com" ∧
    clean_url "ftp://example.com" ≠ "ftp://example.com" := by
  refine ⟨by decide, by decide, by decide⟩

/-- C9 (amended): the URL cleaning prefixes `https://` exactly when
the url does not start with the literal `http://` or `https://`
(case-sensitive); urls starting with either of those are unchanged,
and every other url — including one with a different scheme such as
`ftp://` — is prefixed. -/
theorem clean_url_amended (url : String) :
    ((pyStartsWith url "http://" || pyStartsWith url "https://") = true →
      clean_url url = url) ∧
    ((pyStartsWith url "http://" || pyStartsWith url "https://") = false →
      clean_url url = "https://" ++ url) := by
  constructor <;> intro h <;> simp [clean_url, h]

/-- Witness for C9 (amended): an `http://` url is left unchanged; a
bare domain is prefixed. -/
theorem clean_url_amended_witness :
    clean_url "http://x" = "http://x" ∧
    clean_url "example.com" = "https://" ++ "example.com" :=
  ⟨(clean_url_amended "http://x").1 (by decide),
    (clean_url_amended "example.com").2 (by decide)⟩

/-- Counterexample to C1 as stated: with a non-empty result list but a
failed inference call (`model_response` returned `None`),
`select_best_result` returns `None` — it does not fall back to the
first result `("A", "a")` as the claim requires. -/
theorem select_best_result_counterexample :
    select_best_result none [⟨some "A", some "a", none⟩] = none ∧
    ([⟨some "A", some "a", none⟩] : List SearchResult) ≠ [] ∧
    firstResultFallback [⟨some "A", some "a", none⟩] = some ("A", "a") := by
  exact ⟨rfl, by decide, by decide⟩

/-- C1 (amended): for a non-empty result list, when the selection
inference call returns a (non-empty) response string,
`select_best_result` always produces a pair — the pair parsed from the
`Title:` and `URL:` lines when both parse to non-empty fields,
otherwise the first element's pair; but when the inference call itself
fails (or returns an empty response), it returns the absent result
`None` with no fallback. -/
theorem select_best_result_amended (s : String) (results : List SearchResult)
    (hr : results ≠ []) (hs : s ≠ "") :
    (∃ p, select_best_result (some s) results = some p ∧
      (select_best_result (some s) results = firstResultFallback results ∨
        (extractField "Title:" (pyLines s) = some p.1 ∧
          extractField "URL:" (pyLines s) = some p.2))) ∧
    select_best_result none results = none := by
  refine ⟨?_, rfl⟩
  cases results with
  | nil => exact absurd rfl hr
  | cons r rs =>
    cases ht : extractField "Title:" (pyLines s) with
    | none =>
      refine ⟨(r.title.getD "Unknown", r.url.getD ""), ?_, Or.inl ?_⟩
      · simp [select_best_result, hs, ht, firstResultFallback]
      · simp [select_best_result, hs, ht, firstResultFallback]
    | some t =>
      cases hu : extractField "URL:" (pyLines s) with
      | none =>
        refine ⟨(r.title.getD "Unknown", r.url.getD ""), ?_, Or.inl ?_⟩
        · simp [select_best_result, hs, ht, hu, firstResultFallback]
        · simp [select_best_result, hs, ht, hu, firstResultFallback]
      | some u =>
        by_cases hcond : t ≠ "" ∧ u ≠ ""
        · refine ⟨(t, u), ?_, ?_⟩
          · simp [select_best_result, hs, ht, hu, hcond]
          · exact Or.inr ⟨rfl, rfl⟩
        · refine ⟨(r.title.getD "Unknown", r.url.getD ""), ?_, Or.inl ?_⟩
          · simp [select_best_result, hs, ht, hu, hcond, firstResultFallback]
          · simp [select_best_result, hs, ht, hu, hcond, firstResultFallback]

/-- Witness for C1 (amended): an unparsable non-empty response over a
one-element result list falls back to that element's pair, and a
failed inference call yields `None`. -/
theorem select_best_result_amended_witness :
    select_best_result (some "x") [⟨some "A", some "a", none⟩] =
      some ("A", "a") ∧
    select_best_result none [⟨some "A", some "a", none⟩] = none := by
  have h := select_best_result_amended "x" [⟨some "A", some "a", none⟩]
    (by decide) (by decide)
  exact ⟨by decide, h.2⟩

/-- Counterexample to C5 as stated: a pipeline run whose answer
synthesis fails (`completed false`) has nevertheless already written
its history entry — history is recorded after content retrieval but
before synthesis, so a run failing at the synthesis stage is recorded. -/
theorem interactive_search_step_counterexample :
    interactive_search_step (some "q") [some [⟨some "A", some "a", none⟩]]
        (some "x") (some "body") false "question" "ts" 8 [] =
      ([⟨"ts", "question", "q", "A", "a"⟩], PipeOutcome.completed false) := by
  decide

/-- C5 (amended): a history entry is written exactly when the run
completes every stage up to and including content retrieval: a run
failing at query generation, federated search, result selection or
content retrieval leaves the history unchanged (in particular, when
content retrieval fails — the `none` fetch outcome — nothing is
written); a run that passes content retrieval appends its entry
whether or not the subsequent answer synthesis succeeds. -/
theorem interactive_search_step_recording (queryR : Option String)
    (searchOutcomes : List (Option (List SearchResult)))
    (selR fetchR : Option String) (synthOk : Bool) (question ts : String)
    (maxResults : Nat) (history : List HistoryEntry) :
    (((interactive_search_step queryR searchOutcomes selR fetchR synthOk
          question ts maxResults history).1 = history ∧
        ∀ b, (interactive_search_step queryR searchOutcomes selR fetchR synthOk
          question ts maxResults history).2 ≠ PipeOutcome.completed b) ∨
      (∃ e, e.timestamp = ts ∧ e.question = question ∧
        interactive_search_step queryR searchOutcomes selR fetchR synthOk
          question ts maxResults history =
          (save_search_to_history history e, PipeOutcome.completed synthOk))) ∧
    (interactive_search_step queryR searchOutcomes selR none synthOk
      question ts maxResults history).1 = history := by
  constructor
  · unfold interactive_search_step
    repeat' split
    all_goals
      first
        | exact Or.inl ⟨rfl, fun b h => by simp at h⟩
        | exact Or.inr ⟨_, rfl, rfl, rfl⟩
  · unfold interactive_search_step
    repeat' split
    all_goals simp_all

/-- Witness for C5 (amended): a concrete run whose content retrieval
fails writes no history entry. -/
theorem interactive_search_step_recording_witness :
    (interactive_search_step (some "q") [some [⟨some "A", some "a", none⟩]]
      (some "x") none true "question" "ts" 8 []).1 = [] :=
  (interactive_search_step_recording (some "q")
    [some [⟨some "A", some "a", none⟩]] (some "x") none true
    "question" "ts" 8 []).2

end OllamaWebSearch
